import Mathlib

/-!
Verification of the Automatic Edge Browser Web Searcher scripts.

The repository ships two versions of the same script: `main.py` (version
2.1.0, called v2.1 below) and `src/main.py` (version 1.6.0, called v1.6
below).  This file gives a shallow embedding of the pure logic of both:
the query loader `_load_queries`, the profile locator
`_find_edge_profiles`, the profile stager `_copy_profile_safely`, the
navigation retry loop of `_perform_search`, the Edge-process kill loop of
v1.6's `run_automation`, and the launch configuration each version hands
to Playwright.  Filesystem and process effects are modelled by explicit
environments (which files exist, which copies fail and with what error
text, which processes run) and by event traces.
-/

/- ## Python string primitives used by `_load_queries` -/

/-- Whitespace characters stripped by Python's `str.strip()` (ASCII range). -/
def pyIsSpace (c : Char) : Bool :=
  c = ' ' || c = '\t' || c = '\n' || c = '\r' || c = '\x0b' || c = '\x0c'

/-- Characters stripped by `str.strip('",')` in `_load_queries`. -/
def isQuoteComma (c : Char) : Bool :=
  c = '"' || c = ','

/-- Python `str.strip`: drop characters satisfying `p` from both ends. -/
def stripBy (p : Char → Bool) (s : String) : String :=
  ⟨((s.data.dropWhile p).reverse.dropWhile p).reverse⟩

/-- The per-line transform of `_load_queries`: `line.strip().strip('",')`. -/
def processLine (s : String) : String :=
  stripBy isQuoteComma (stripBy pyIsSpace s)

/-- The filter of `_load_queries`: `if line.strip()` (truthiness = non-empty). -/
def keepLine (s : String) : Bool :=
  !(stripBy pyIsSpace s).isEmpty

/-- Order-preserving deduplication with an accumulator of already-seen keys;
this is the operational behaviour of Python's `dict.fromkeys`. -/
def dedupFirstAux [DecidableEq α] (seen : List α) : List α → List α
  | [] => []
  | x :: xs => if x ∈ seen then dedupFirstAux seen xs else x :: dedupFirstAux (x :: seen) xs

/-- `list(dict.fromkeys(l))`: keep the first occurrence of each value. -/
def dedupFirst [DecidableEq α] (l : List α) : List α :=
  dedupFirstAux [] l

/-- Embedding of `_load_queries` applied to the lines of `queries.txt`:
strip whitespace then quote/comma characters, drop blank lines,
deduplicate keeping first occurrences. -/
def loadQueries (lines : List String) : List String :=
  dedupFirst ((lines.filter keepLine).map processLine)

/-- Modelled from the spec: "deduplicates by first occurrence (stable
order)" - keep the head, drop its later duplicates, recurse. -/
def dedupKeepFirstSpec [DecidableEq α] : List α → List α
  | [] => []
  | x :: xs => x :: dedupKeepFirstSpec (xs.filter (fun y => decide (y ≠ x)))
termination_by l => l.length
decreasing_by
  simp only [List.length_cons]
  exact Nat.lt_succ_of_le (List.length_filter_le _ _)

/-- Python's `str.startswith`, as a test on character lists. -/
def startsList [DecidableEq α] : List α → List α → Bool
  | [], _ => true
  | _ :: _, [] => false
  | a :: as, b :: bs => a = b && startsList as bs

/-- Substring occurrence check on lists, modelling Python's `in` on
strings. -/
def infixList [DecidableEq α] (n : List α) : List α → Bool
  | [] => startsList n []
  | c :: cs => startsList n (c :: cs) || infixList n cs

/-- Python's `str.endswith`: the reversed pattern starts the reversed
string. -/
def endsList [DecidableEq α] (n s : List α) : Bool :=
  startsList n.reverse s.reverse

/-- Python's `str.lower` (ASCII letters). -/
def pyLower (s : String) : String :=
  ⟨s.data.map Char.toLower⟩

/- ## Profile locator `_find_edge_profiles` -/

/-- The name filter of `_find_edge_profiles`:
`name == "Default" or name.startswith("Profile ")`. -/
def isProfileName (n : String) : Bool :=
  n == "Default" || startsList "Profile ".data n.data

/-- Embedding of `_find_edge_profiles`: the base directory is given as the
list of its entries `(name, is_dir)` in iteration order; keep directories
whose name passes `isProfileName`, then `sorted(...)` by name.  Python's
`sorted` is modelled by the stable `insertionSort`. -/
def findEdgeProfiles (entries : List (String × Bool)) : List String :=
  List.insertionSort (· ≤ ·)
    (((entries.filter (fun e => e.2)).map Prod.fst).filter isProfileName)

/-- Modelled from the spec: a profile name is exactly `Default` or
`Profile ` followed by (at least one) digits. -/
def isSpecProfileName (n : String) : Bool :=
  n == "Default" ||
    (startsList "Profile ".data n.data && !(n.data.drop 8).isEmpty
      && (n.data.drop 8).all Char.isDigit)

/- ## Profile stager `_copy_profile_safely` -/

/-- A file found by `os.walk(source_profile)`: its directory relative to
the source root and its file name. -/
structure SrcFile where
  relDir : String
  name : String
deriving DecidableEq, Repr

/-- Environment of one staging run: does the sibling `-temp` directory
exist, does the writability probe succeed, does `shutil.rmtree` succeed,
the files of the walk in order, and for each file whether `shutil.copy2`
succeeds (`none`) or raises an `OSError` with the given text (`some`). -/
structure StageEnv where
  tempExists : Bool
  tempWritable : Bool
  rmtreeOk : Bool
  files : List SrcFile
  copyErr : SrcFile → Option String

/-- How a `_copy_profile_safely` call ends: a returned working directory,
`sys.exit(1)` on an undeletable stale temp directory, or the raised
`OSError` for a locked-file conflict `(src, dst, reason)`. -/
inductive StageOutcome where
  | returned (dir : String)
  | exited
  | raisedLock (src dst reason : String)
deriving DecidableEq, Repr

/-- Observable record of one `_copy_profile_safely` call: its outcome, the
files for which `copy_file` was invoked (in order), the accumulated
`copy_errors` list of `(src, dst, reason)` triples, the filesystem entries
the call created, and whether the non-fatal partial-copy warning was
printed. -/
structure StageRun where
  outcome : StageOutcome
  attempted : List SrcFile
  copyErrors : List (String × String × String)
  created : List String
  warnedKeptGoing : Bool
deriving Repr

/-- The skip test of the copy walk:
`file.endswith('.lock') or file.endswith('.tmp')`. -/
def skipName (n : String) : Bool :=
  endsList ".lock".data n.data || endsList ".tmp".data n.data

/-- The cross-process lock signature of `_copy_profile_safely`:
`"WinError 32" in error or "being used by another process" in error`. -/
def isLockMsg (e : String) : Bool :=
  infixList "WinError 32".data e.data || infixList "being used by another process".data e.data

/-- Absolute path of a walked source file (`Path(root) / file`). -/
def srcFilePath (parent name : String) (f : SrcFile) : String :=
  parent ++ "/" ++ name ++ "/" ++ f.relDir ++ "/" ++ f.name

/-- Absolute path of the copy destination (`dst_dir / file`). -/
def dstFilePath (parent name : String) (f : SrcFile) : String :=
  parent ++ "/" ++ name ++ "-temp/" ++ f.relDir ++ "/" ++ f.name

/-- One iteration of the copy walk: skip `.lock`/`.tmp` files, otherwise
attempt the copy, appending a `(src, dst, reason)` triple to
`copy_errors` on failure; the walk never aborts. -/
def walkStep (parent name : String) (env : StageEnv)
    (acc : List SrcFile × List (String × String × String)) (f : SrcFile) :
    List SrcFile × List (String × String × String) :=
  if skipName f.name then acc
  else
    match env.copyErr f with
    | none => (acc.1 ++ [f], acc.2)
    | some e => (acc.1 ++ [f], acc.2 ++ [(srcFilePath parent name f, dstFilePath parent name f, e)])

/-- The `(src, dst, reason)` triples the walk records for a file list. -/
def walkErrors (parent name : String) (env : StageEnv) (files : List SrcFile) :
    List (String × String × String) :=
  files.filterMap fun f =>
    if skipName f.name then none
    else
      match env.copyErr f with
      | none => none
      | some e => some (srcFilePath parent name f, dstFilePath parent name f, e)

/-- The copy walk plus the error inspection that follows it: raise on the
first recorded failure whose text matches the lock signature, otherwise
return the temp directory (warning when failures were recorded). -/
def runWalk (parent name : String) (env : StageEnv) : StageRun :=
  match env.files.foldl (walkStep parent name env) ([], []) with
  | (att, errs) =>
    match errs.find? (fun t => isLockMsg t.2.2) with
    | some t =>
        { outcome := .raisedLock t.1 t.2.1 t.2.2, attempted := att, copyErrors := errs,
          created := [parent ++ "/" ++ name ++ "-temp"], warnedKeptGoing := false }
    | none =>
        { outcome := .returned (parent ++ "/" ++ name ++ "-temp"), attempted := att,
          copyErrors := errs,
          created := [parent ++ "/" ++ name ++ "-temp"], warnedKeptGoing := !errs.isEmpty }

/-- Embedding of `_copy_profile_safely` for the profile directory
`parent ++ "/" ++ name`.  Direct mode returns the source path at once; in
copy mode an existing writable temp directory is reused, an existing
unwritable one is removed (exiting when removal fails), and otherwise the
copy walk runs. -/
def copyProfileSafely (useDirect : Bool) (parent name : String) (env : StageEnv) : StageRun :=
  if useDirect then
    { outcome := .returned (parent ++ "/" ++ name), attempted := [], copyErrors := [],
      created := [], warnedKeptGoing := false }
  else
    let tmp := parent ++ "/" ++ name ++ "-temp"
    if env.tempExists then
      if env.tempWritable then
        { outcome := .returned tmp, attempted := [], copyErrors := [],
          created := [tmp ++ "/_can_write_test.tmp"], warnedKeptGoing := false }
      else if env.rmtreeOk then runWalk parent name env
      else
        { outcome := .exited, attempted := [], copyErrors := [],
          created := [], warnedKeptGoing := false }
    else runWalk parent name env

/- ## Navigation retry loop of `_perform_search` -/

/-- Events of the navigation retry loop: a `page.goto` attempt and the
fixed `asyncio.sleep` backoff between attempts. -/
inductive NavEv where
  | goto
  | backoff (secs : Nat)
deriving DecidableEq, Repr

/-- The body of `for attempt in range(3)` in `_perform_search`, given the
success of each attempt: on success break, on failure at `attempt == 2`
return failure, otherwise sleep 2 seconds and continue. -/
def navRetryAux (ok : Nat → Bool) : List Nat → List NavEv × Bool
  | [] => ([], true)
  | a :: rest =>
      if ok a then ([NavEv.goto], true)
      else if a == 2 then ([NavEv.goto], false)
      else
        let r := navRetryAux ok rest
        (NavEv.goto :: NavEv.backoff 2 :: r.1, r.2)

/-- The navigation retry loop `for attempt in range(3)`. -/
def navRetry (ok : Nat → Bool) : List NavEv × Bool :=
  navRetryAux ok [0, 1, 2]

/- ## `run_automation`: kill loop and launch configuration -/

/-- A running process as seen through `psutil.process_iter`: pid, name,
and whether `terminate()` would succeed (otherwise `AccessDenied`). -/
structure ProcInfo where
  pid : Nat
  name : String
  canTerminate : Bool
deriving DecidableEq, Repr

/-- Events of the `run_automation` workflow after profile selection. -/
inductive Ev where
  | profileSelected (name : String)
  | termEdge (pid : Nat)
  | warnNoPerm (pid : Nat)
  | slept (secs : Nat)
  | staged (dir : String)
  | launched (userDataDir : String) (args : List String)
  | aborted
deriving DecidableEq, Repr

/-- The v1.6 kill loop body for one process:
`if proc.info.get('name','').lower().startswith('msedge'): proc.terminate()`,
logging a warning when `terminate` raises `AccessDenied`. -/
def killOne (p : ProcInfo) : List Ev :=
  if startsList "msedge".data (pyLower p.name).data then
    if p.canTerminate then [Ev.termEdge p.pid] else [Ev.warnNoPerm p.pid]
  else []

/-- Launch flags common to both script versions. -/
def commonArgs : List String :=
  ["--no-sandbox", "--disable-features=ImprovedCookieControls,LazyFrameLoading",
   "--disable-hang-monitor", "--disable-popup-blocking", "--disable-sync",
   "--no-first-run", "--password-store=basic"]

/-- Embedding of v2.1 `run_automation` from profile selection to browser
launch: stage the selected profile `parent ++ "/" ++ name` and launch the
persistent context with `user_data_dir=str(temp_profile)`. -/
def runAutomation21 (parent name : String) (useDirect : Bool) (env : StageEnv) : List Ev :=
  Ev.profileSelected name ::
    (match (copyProfileSafely useDirect parent name env).outcome with
     | .returned d => [Ev.staged d, Ev.launched d commonArgs]
     | _ => [Ev.aborted])

/-- Embedding of v1.6 `run_automation` from profile selection to browser
launch: terminate every process whose lowercased name starts with
`msedge`, sleep 2 seconds, check the Edge User Data directory (`parent`),
stage the profile, then launch the persistent context with
`user_data_dir=str(edge_data_dir)` and a `--profile-directory` flag for
the selected profile name. -/
def runAutomation16 (parent name : String) (useDirect : Bool) (procs : List ProcInfo)
    (edgeDirOk : Bool) (env : StageEnv) : List Ev :=
  Ev.profileSelected name ::
    ((procs.map killOne).flatten ++ Ev.slept 2 ::
      (if edgeDirOk then
        match (copyProfileSafely useDirect parent name env).outcome with
        | .returned d =>
            [Ev.staged d, Ev.launched parent (("--profile-directory=" ++ name) :: commonArgs)]
        | _ => [Ev.aborted]
       else [Ev.aborted]))

/- ## Concrete environments used in the witness theorems -/

/-- A staging environment with no pre-existing temp directory, one
ordinary file, one skipped `.tmp` file, and no copy failures. -/
def envClean : StageEnv :=
  { tempExists := false, tempWritable := false, rmtreeOk := false,
    files := [⟨"SubDir", "Preferences"⟩, ⟨"SubDir", "scratch.tmp"⟩],
    copyErr := fun _ => none }

/-- A staging environment whose single copy failure carries the
`WinError 32` lock signature. -/
def envLock : StageEnv :=
  { tempExists := false, tempWritable := false, rmtreeOk := false,
    files := [⟨"Network", "Cookies"⟩, ⟨"SubDir", "Preferences"⟩],
    copyErr := fun f =>
      if f.name = "Cookies" then some "[WinError 32] being used by another process" else none }

/-- A staging environment whose single copy failure does not match the
lock signature. -/
def envDenied : StageEnv :=
  { tempExists := false, tempWritable := false, rmtreeOk := false,
    files := [⟨"Network", "Cookies"⟩, ⟨"SubDir", "Preferences"⟩],
    copyErr := fun f => if f.name = "Cookies" then some "[Errno 13] Permission denied" else none }

/-- A staging environment with an existing, writable temp directory. -/
def envReuse : StageEnv :=
  { tempExists := true, tempWritable := true, rmtreeOk := true,
    files := [⟨"SubDir", "Preferences"⟩],
    copyErr := fun _ => none }

/- ## Helper lemmas about the copy walk -/

theorem walk_foldl (parent name : String) (env : StageEnv) (files : List SrcFile) :
    ∀ (a : List SrcFile) (e : List (String × String × String)),
      files.foldl (walkStep parent name env) (a, e)
        = (a ++ files.filter (fun f => !skipName f.name),
           e ++ walkErrors parent name env files) := by
  induction files with
  | nil => intro a e; simp [walkErrors]
  | cons f fs ih =>
    intro a e
    simp only [List.foldl_cons]
    cases hs : skipName f.name with
    | true =>
      rw [show walkStep parent name env (a, e) f = (a, e) from by simp [walkStep, hs]]
      rw [ih]
      simp [walkErrors, hs, List.filter_cons, List.filterMap_cons]
    | false =>
      cases hc : env.copyErr f with
      | none =>
        rw [show walkStep parent name env (a, e) f = (a ++ [f], e) from by
          simp [walkStep, hs, hc]]
        rw [ih]
        simp [walkErrors, hs, hc, List.filter_cons, List.filterMap_cons]
      | some m =>
        rw [show walkStep parent name env (a, e) f
              = (a ++ [f], e ++ [(srcFilePath parent name f, dstFilePath parent name f, m)]) from by
          simp [walkStep, hs, hc]]
        rw [ih]
        simp [walkErrors, hs, hc, List.filter_cons, List.filterMap_cons]

theorem runWalk_attempted (parent name : String) (env : StageEnv) :
    (runWalk parent name env).attempted = env.files.filter (fun f => !skipName f.name) := by
  unfold runWalk
  rw [walk_foldl]
  split
  split <;> simp_all

theorem runWalk_copyErrors (parent name : String) (env : StageEnv) :
    (runWalk parent name env).copyErrors = walkErrors parent name env env.files := by
  unfold runWalk
  rw [walk_foldl]
  split
  split <;> simp_all

theorem runWalk_lock_outcome (parent name : String) (env : StageEnv)
    (u : String × String × String)
    (hfind : (walkErrors parent name env env.files).find? (fun v => isLockMsg v.2.2) = some u) :
    (runWalk parent name env).outcome = StageOutcome.raisedLock u.1 u.2.1 u.2.2 := by
  unfold runWalk
  rw [walk_foldl]
  simp only [List.nil_append]
  rw [hfind]

theorem runWalk_none_outcome (parent name : String) (env : StageEnv)
    (hfind : (walkErrors parent name env env.files).find? (fun v => isLockMsg v.2.2) = none) :
    (runWalk parent name env).outcome = StageOutcome.returned (parent ++ "/" ++ name ++ "-temp")
    ∧ (runWalk parent name env).warnedKeptGoing
        = !(walkErrors parent name env env.files).isEmpty := by
  unfold runWalk
  rw [walk_foldl]
  simp only [List.nil_append]
  rw [hfind]
  exact ⟨rfl, rfl⟩

theorem stage_cases (parent name : String) (env : StageEnv) :
    copyProfileSafely false parent name env = runWalk parent name env
    ∨ ((copyProfileSafely false parent name env).copyErrors = []
        ∧ (copyProfileSafely false parent name env).attempted = []) := by
  by_cases h1 : env.tempExists = true
  · by_cases h2 : env.tempWritable = true
    · right
      simp [copyProfileSafely, h1, h2]
    · by_cases h3 : env.rmtreeOk = true
      · left
        simp [copyProfileSafely, h1, h2, h3]
      · right
        simp [copyProfileSafely, h1, h2, h3]
  · left
    simp [copyProfileSafely, h1]

/- ## Helper lemmas about first-occurrence deduplication -/

theorem mem_dedupFirstAux [DecidableEq α] (a : α) :
    ∀ (l seen : List α), a ∈ dedupFirstAux seen l ↔ a ∈ l ∧ a ∉ seen := by
  intro l
  induction l with
  | nil => intro seen; simp [dedupFirstAux]
  | cons x xs ih =>
    intro seen
    by_cases hx : x ∈ seen
    · rw [show dedupFirstAux seen (x :: xs) = dedupFirstAux seen xs from by
        simp [dedupFirstAux, hx]]
      rw [ih]
      constructor
      · rintro ⟨h1, h2⟩
        exact ⟨List.mem_cons_of_mem _ h1, h2⟩
      · rintro ⟨h1, h2⟩
        rcases List.mem_cons.mp h1 with rfl | h1
        · exact absurd hx h2
        · exact ⟨h1, h2⟩
    · rw [show dedupFirstAux seen (x :: xs) = x :: dedupFirstAux (x :: seen) xs from by
        simp [dedupFirstAux, hx]]
      rw [List.mem_cons, ih]
      simp only [List.mem_cons, not_or]
      constructor
      · rintro (rfl | ⟨h1, h2, h3⟩)
        · exact ⟨Or.inl rfl, hx⟩
        · exact ⟨Or.inr h1, h3⟩
      · rintro ⟨rfl | h1, h2⟩
        · exact Or.inl rfl
        · by_cases hax : a = x
          · exact Or.inl hax
          · exact Or.inr ⟨h1, hax, h2⟩

theorem nodup_dedupFirstAux [DecidableEq α] :
    ∀ (l seen : List α), (dedupFirstAux seen l).Nodup := by
  intro l
  induction l with
  | nil => intro seen; simp [dedupFirstAux]
  | cons x xs ih =>
    intro seen
    by_cases hx : x ∈ seen
    · rw [show dedupFirstAux seen (x :: xs) = dedupFirstAux seen xs from by
        simp [dedupFirstAux, hx]]
      exact ih seen
    · rw [show dedupFirstAux seen (x :: xs) = x :: dedupFirstAux (x :: seen) xs from by
        simp [dedupFirstAux, hx]]
      refine List.nodup_cons.mpr ⟨?_, ih _⟩
      intro hmem
      rcases (mem_dedupFirstAux x xs (x :: seen)).mp hmem with ⟨_, h2⟩
      exact h2 (List.mem_cons_self x seen)

theorem dedupFirstAux_eq_spec [DecidableEq α] :
    ∀ (l seen : List α),
      dedupFirstAux seen l = dedupKeepFirstSpec (l.filter (fun y => decide (y ∉ seen))) := by
  intro l
  induction l with
  | nil => intro seen; simp [dedupFirstAux, dedupKeepFirstSpec]
  | cons x xs ih =>
    intro seen
    by_cases hx : x ∈ seen
    · rw [show dedupFirstAux seen (x :: xs) = dedupFirstAux seen xs from by
        simp [dedupFirstAux, hx]]
      rw [show (x :: xs).filter (fun y => decide (y ∉ seen))
            = xs.filter (fun y => decide (y ∉ seen)) from by simp [hx]]
      exact ih seen
    · rw [show dedupFirstAux seen (x :: xs) = x :: dedupFirstAux (x :: seen) xs from by
        simp [dedupFirstAux, hx]]
      rw [show (x :: xs).filter (fun y => decide (y ∉ seen))
            = x :: xs.filter (fun y => decide (y ∉ seen)) from by simp [hx]]
      rw [dedupKeepFirstSpec]
      congr 1
      rw [ih (x :: seen)]
      congr 1
      rw [List.filter_filter]
      apply List.filter_congr
      intro y _
      by_cases hyx : y = x
      · subst hyx; simp
      · by_cases hys : y ∈ seen <;> simp [hyx, hys]

theorem dedupFirst_eq_spec [DecidableEq α] (l : List α) :
    dedupFirst l = dedupKeepFirstSpec l := by
  have h := dedupFirstAux_eq_spec l ([] : List α)
  simpa [dedupFirst] using h

/- ## Claim theorems -/

/-- C3: for every input file, `_load_queries` trims whitespace from each
line, strips leading/trailing double-quote and comma characters, discards
blank lines, and returns each distinct resulting value exactly once, in
order of first appearance (stable deduplication): the result is exactly
the keep-first-occurrence deduplication of the processed non-blank lines,
it has no duplicates, and it contains precisely the processed values. -/
theorem loadQueries_correct (lines : List String) :
    loadQueries lines = dedupKeepFirstSpec ((lines.filter keepLine).map processLine)
    ∧ (loadQueries lines).Nodup
    ∧ ∀ q, q ∈ loadQueries lines
        ↔ ∃ l, l ∈ lines ∧ keepLine l = true ∧ processLine l = q := by
  refine ⟨dedupFirst_eq_spec _, nodup_dedupFirstAux _ _, fun q => ?_⟩
  unfold loadQueries dedupFirst
  rw [mem_dedupFirstAux]
  simp only [List.mem_map, List.mem_filter, List.not_mem_nil, not_false_iff, and_true]
  constructor
  · rintro ⟨l, ⟨hl, hk⟩, hp⟩
    exact ⟨l, hl, hk, hp⟩
  · rintro ⟨l, hl, hk, hp⟩
    exact ⟨l, ⟨hl, hk⟩, hp⟩

/-- C4 counterexample: `_find_edge_profiles` keeps a directory named
`Profile x`, although `x` is not a digit string, because the code only
tests the prefix `Profile ` and never checks for digits. -/
theorem findEdgeProfiles_counterexample :
    findEdgeProfiles [("Profile x", true)] = ["Profile x"]
    ∧ isSpecProfileName "Profile x" = false
    ∧ isProfileName "Profile x" = true := by
  refine ⟨rfl, by decide, by decide⟩

/-- C4 (amended): `_find_edge_profiles` returns, sorted by name, exactly
the immediate subdirectories whose name is exactly `Default` or starts
with the prefix `Profile ` (a trailing digit string is not required). -/
theorem findEdgeProfiles_amended (entries : List (String × Bool)) :
    (findEdgeProfiles entries).Sorted (· ≤ ·)
    ∧ ∀ n, (n ∈ findEdgeProfiles entries
        ↔ ∃ e, e ∈ entries ∧ e.1 = n ∧ e.2 = true ∧ isProfileName n = true) := by
  constructor
  · exact List.sorted_insertionSort _ _
  · intro n
    unfold findEdgeProfiles
    rw [(List.perm_insertionSort _ _).mem_iff]
    rw [List.mem_filter, List.mem_map]
    constructor
    · rintro ⟨⟨e, he, rfl⟩, hn⟩
      rcases List.mem_filter.mp he with ⟨hmem, hb⟩
      exact ⟨e, hmem, rfl, hb, hn⟩
    · rintro ⟨e, hmem, rfl, hb, hn⟩
      exact ⟨⟨e, List.mem_filter.mpr ⟨hmem, hb⟩, rfl⟩, hn⟩

/-- C6: a copy-mode staging run that finds the sibling temp directory
already existing and passes the writability probe performs zero file
copies and returns that temp directory as the working directory. -/
theorem stage_reuse_temp (parent name : String) (env : StageEnv)
    (hex : env.tempExists = true) (hw : env.tempWritable = true) :
    (copyProfileSafely false parent name env).outcome
        = StageOutcome.returned (parent ++ "/" ++ name ++ "-temp")
    ∧ (copyProfileSafely false parent name env).attempted = []
    ∧ (copyProfileSafely false parent name env).copyErrors = [] := by
  refine ⟨?_, ?_, ?_⟩ <;> simp [copyProfileSafely, hex, hw]

/-- C6 witness: the reuse theorem applied to a concrete environment with
an existing writable temp directory. -/
theorem stage_reuse_temp_witness :
    (copyProfileSafely false "UserData" "Default" envReuse).outcome
        = StageOutcome.returned "UserData/Default-temp"
    ∧ (copyProfileSafely false "UserData" "Default" envReuse).attempted = []
    ∧ (copyProfileSafely false "UserData" "Default" envReuse).copyErrors = [] :=
  stage_reuse_temp "UserData" "Default" envReuse rfl rfl

/-- C7: staging in direct mode returns the source path verbatim, creates
no filesystem entry, attempts no copy and records no failure. -/
theorem stage_direct_noop (parent name : String) (env : StageEnv) :
    (copyProfileSafely true parent name env).outcome
        = StageOutcome.returned (parent ++ "/" ++ name)
    ∧ (copyProfileSafely true parent name env).created = []
    ∧ (copyProfileSafely true parent name env).attempted = []
    ∧ (copyProfileSafely true parent name env).copyErrors = [] := by
  refine ⟨?_, ?_, ?_, ?_⟩ <;> simp [copyProfileSafely]

theorem mem_walkErrors (parent name : String) (env : StageEnv) (files : List SrcFile)
    (t : String × String × String) (h : t ∈ walkErrors parent name env files) :
    ∃ f, f ∈ files ∧ skipName f.name = false ∧ env.copyErr f = some t.2.2
      ∧ t.1 = srcFilePath parent name f ∧ t.2.1 = dstFilePath parent name f := by
  unfold walkErrors at h
  rcases List.mem_filterMap.mp h with ⟨f, hf, hsome⟩
  by_cases hs : skipName f.name = true
  · rw [if_pos hs] at hsome
    exact absurd hsome (by simp)
  · rw [if_neg hs] at hsome
    cases hc : env.copyErr f with
    | none =>
      rw [hc] at hsome
      exact absurd hsome (by simp)
    | some m =>
      rw [hc] at hsome
      have h2 := Option.some.inj hsome
      subst h2
      exact ⟨f, hf, by revert hs; cases skipName f.name <;> simp, by rw [hc], rfl, rfl⟩

/-- C1: in a copy-mode staging run, if any recorded copy failure's error
text matches the cross-process lock signature, `_copy_profile_safely`
raises the fatal `OSError` built from the first such conflict - naming its
offending source path - and does not return a working directory. -/
theorem stage_lock_fatal (parent name : String) (env : StageEnv)
    (t : String × String × String)
    (ht : t ∈ (copyProfileSafely false parent name env).copyErrors)
    (hl : isLockMsg t.2.2 = true) :
    ∃ s d r, (copyProfileSafely false parent name env).outcome = StageOutcome.raisedLock s d r
      ∧ isLockMsg r = true
      ∧ (copyProfileSafely false parent name env).copyErrors.find?
          (fun u => isLockMsg u.2.2) = some (s, d, r)
      ∧ ∀ dir, (copyProfileSafely false parent name env).outcome
          ≠ StageOutcome.returned dir := by
  rcases stage_cases parent name env with heq | ⟨hce, _⟩
  · rw [heq] at ht ⊢
    rw [runWalk_copyErrors] at ht ⊢
    cases hfind : (walkErrors parent name env env.files).find? (fun u => isLockMsg u.2.2) with
    | none =>
      exact absurd hl (List.find?_eq_none.mp hfind t ht)
    | some u =>
      refine ⟨u.1, u.2.1, u.2.2, runWalk_lock_outcome parent name env u hfind, ?_, ?_, ?_⟩
      · have hu := List.find?_some hfind
        exact hu
      · rfl
      · intro dir h
        rw [runWalk_lock_outcome parent name env u hfind] at h
        exact StageOutcome.noConfusion h
  · rw [hce] at ht
    exact absurd ht (List.not_mem_nil t)

/-- C1 witness: the lock-fatal theorem applied to a concrete staging
environment whose `Cookies` copy fails with a `WinError 32` message. -/
theorem stage_lock_fatal_witness :
    ∃ s d r, (copyProfileSafely false "P" "Default" envLock).outcome
          = StageOutcome.raisedLock s d r
      ∧ isLockMsg r = true
      ∧ (copyProfileSafely false "P" "Default" envLock).copyErrors.find?
          (fun u => isLockMsg u.2.2) = some (s, d, r)
      ∧ ∀ dir, (copyProfileSafely false "P" "Default" envLock).outcome
          ≠ StageOutcome.returned dir :=
  stage_lock_fatal "P" "Default" envLock
    ("P/Default/Network/Cookies", "P/Default-temp/Network/Cookies",
      "[WinError 32] being used by another process")
    (by decide) (by decide)

/-- C2: in a copy-mode staging run where copy failures occur but none
matches the lock signature, every failure is recorded as a
`(source, dest, reason)` triple for a walked non-skipped file, the walk
still attempts every other file, a warning is printed, and the routine
returns the temp working directory. -/
theorem stage_partial_copy_nonfatal (parent name : String) (env : StageEnv)
    (hne : (copyProfileSafely false parent name env).copyErrors ≠ [])
    (hnl : ∀ t ∈ (copyProfileSafely false parent name env).copyErrors,
        isLockMsg t.2.2 = false) :
    (copyProfileSafely false parent name env).outcome
        = StageOutcome.returned (parent ++ "/" ++ name ++ "-temp")
    ∧ (copyProfileSafely false parent name env).warnedKeptGoing = true
    ∧ (copyProfileSafely false parent name env).attempted
        = env.files.filter (fun f => !skipName f.name)
    ∧ ∀ t ∈ (copyProfileSafely false parent name env).copyErrors,
        ∃ f, f ∈ env.files ∧ skipName f.name = false ∧ env.copyErr f = some t.2.2
          ∧ t.1 = srcFilePath parent name f ∧ t.2.1 = dstFilePath parent name f := by
  rcases stage_cases parent name env with heq | ⟨hce, _⟩
  · rw [heq] at hne hnl ⊢
    rw [runWalk_copyErrors] at hne hnl ⊢
    have hfind : (walkErrors parent name env env.files).find? (fun u => isLockMsg u.2.2)
        = none := by
      rw [List.find?_eq_none]
      intro x hx
      simp [hnl x hx]
    obtain ⟨ho, hw⟩ := runWalk_none_outcome parent name env hfind
    refine ⟨ho, ?_, runWalk_attempted parent name env, ?_⟩
    · rw [hw]
      cases hwe : walkErrors parent name env env.files with
      | nil => exact absurd hwe hne
      | cons a l => simp
    · intro t htm
      exact mem_walkErrors parent name env env.files t htm
  · rw [hce] at hne
    exact absurd rfl hne

/-- C2 witness: the non-fatal partial-copy theorem applied to a concrete
environment whose single failure is a permission error without the lock
signature. -/
theorem stage_partial_copy_nonfatal_witness :
    (copyProfileSafely false "P" "Default" envDenied).outcome
        = StageOutcome.returned "P/Default-temp"
    ∧ (copyProfileSafely false "P" "Default" envDenied).warnedKeptGoing = true
    ∧ (copyProfileSafely false "P" "Default" envDenied).attempted
        = envDenied.files.filter (fun f => !skipName f.name)
    ∧ ∀ t ∈ (copyProfileSafely false "P" "Default" envDenied).copyErrors,
        ∃ f, f ∈ envDenied.files ∧ skipName f.name = false
          ∧ envDenied.copyErr f = some t.2.2
          ∧ t.1 = srcFilePath "P" "Default" f ∧ t.2.1 = dstFilePath "P" "Default" f :=
  stage_partial_copy_nonfatal "P" "Default" envDenied (by decide)
    (by decide)

/-- C8: whenever the copy walk of a copy-mode staging run is reached,
every file whose name ends in `.lock` or `.tmp` is skipped (its copy is
never attempted) while a copy is attempted for every other file of the
source tree. -/
theorem stage_skips_lock_tmp (parent name : String) (env : StageEnv)
    (hreach : env.tempExists = false ∨ (env.tempWritable = false ∧ env.rmtreeOk = true)) :
    (copyProfileSafely false parent name env).attempted
        = env.files.filter (fun f => !skipName f.name)
    ∧ (∀ f ∈ env.files, skipName f.name = true
        → f ∉ (copyProfileSafely false parent name env).attempted)
    ∧ (∀ f ∈ env.files, skipName f.name = false
        → f ∈ (copyProfileSafely false parent name env).attempted) := by
  have heq : copyProfileSafely false parent name env = runWalk parent name env := by
    rcases hreach with h | ⟨h2, h3⟩
    · simp [copyProfileSafely, h]
    · by_cases h1 : env.tempExists = true
      · simp [copyProfileSafely, h1, h2, h3]
      · simp [copyProfileSafely, h1]
  rw [heq, runWalk_attempted]
  refine ⟨rfl, ?_, ?_⟩
  · intro f _ hskip hmem
    rcases List.mem_filter.mp hmem with ⟨_, hp⟩
    simp [hskip] at hp
  · intro f hf hskip
    exact List.mem_filter.mpr ⟨hf, by simp [hskip]⟩

/-- C8 witness: the skip theorem applied to a concrete environment with
one ordinary file and one `.tmp` file. -/
theorem stage_skips_lock_tmp_witness :
    (copyProfileSafely false "P" "Default" envClean).attempted
        = envClean.files.filter (fun f => !skipName f.name)
    ∧ (∀ f ∈ envClean.files, skipName f.name = true
        → f ∉ (copyProfileSafely false "P" "Default" envClean).attempted)
    ∧ (∀ f ∈ envClean.files, skipName f.name = false
        → f ∈ (copyProfileSafely false "P" "Default" envClean).attempted) :=
  stage_skips_lock_tmp "P" "Default" envClean (Or.inl rfl)

/-- C9: navigation to the search engine is attempted at most three times,
with a fixed 2-second backoff between attempts; after a third failed
attempt the search reports failure with no further retry, and the only
other fallible per-item operation - the file copy of the staging walk -
is attempted at most once per walked file (no automatic retry). -/
theorem navRetry_bound_no_other_retry :
    (∀ ok : Nat → Bool,
      (navRetry ok).1 =
        (if ok 0 then [NavEv.goto]
         else if ok 1 then [NavEv.goto, NavEv.backoff 2, NavEv.goto]
         else [NavEv.goto, NavEv.backoff 2, NavEv.goto, NavEv.backoff 2, NavEv.goto])
      ∧ (navRetry ok).2 = (ok 0 || ok 1 || ok 2)
      ∧ (navRetry ok).1.count NavEv.goto ≤ 3)
    ∧ ∀ (parent name : String) (env : StageEnv) (f : SrcFile),
        (copyProfileSafely false parent name env).attempted.count f
          ≤ env.files.count f := by
  constructor
  · intro ok
    cases h0 : ok 0 <;> cases h1 : ok 1 <;> cases h2 : ok 2 <;>
      refine ⟨?_, ?_, ?_⟩ <;>
        simp [navRetry, navRetryAux, h0, h1, h2, List.count_cons, List.count_nil]
  · intro parent name env f
    rcases stage_cases parent name env with heq | ⟨_, hatt⟩
    · rw [heq, runWalk_attempted]
      exact (List.filter_sublist _).count_le f
    · rw [hatt]
      simp

theorem launched_not_in_kill (procs : List ProcInfo) (u : String) (args : List String) :
    Ev.launched u args ∉ (procs.map killOne).flatten := by
  intro h
  rcases List.mem_flatten.mp h with ⟨l, hl, hm⟩
  rcases List.mem_map.mp hl with ⟨p, _, rfl⟩
  unfold killOne at hm
  by_cases h1 : startsList "msedge".data (pyLower p.name).data = true
  · rw [if_pos h1] at hm
    by_cases h2 : p.canTerminate = true
    · rw [if_pos h2] at hm
      simp at hm
    · rw [if_neg h2] at hm
      simp at hm
  · rw [if_neg h1] at hm
    simp at hm

/-- C5 counterexample: a v1.6 direct-mode run that reaches the browser
launch hands the driver the Edge User Data root `UserData`, which differs
from the staged working directory `UserData/Default` that the stager
returned. -/
theorem launch_dir_counterexample :
    runAutomation16 "UserData" "Default" true [] true envReuse
      = [Ev.profileSelected "Default", Ev.slept 2, Ev.staged "UserData/Default",
         Ev.launched "UserData" ("--profile-directory=Default" :: commonArgs)]
    ∧ ("UserData" : String) ≠ "UserData/Default" :=
  ⟨rfl, by decide⟩

/-- C5 (amended): in the v2.1 script the persistent user-data directory
handed to the automation driver equals the working directory the stager
returned, in both modes; in the v1.6 script every run that reaches the
launch hands the driver the Edge User Data root plus a
`--profile-directory` flag naming the selected profile, not the staged
path. -/
theorem launch_dir_amended :
    (∀ (parent name : String) (useDirect : Bool) (env : StageEnv) (u : String)
        (args : List String),
      Ev.launched u args ∈ runAutomation21 parent name useDirect env →
        (copyProfileSafely useDirect parent name env).outcome = StageOutcome.returned u
        ∧ Ev.staged u ∈ runAutomation21 parent name useDirect env)
    ∧ (∀ (parent name : String) (useDirect : Bool) (procs : List ProcInfo)
        (edgeDirOk : Bool) (env : StageEnv) (u : String) (args : List String),
      Ev.launched u args ∈ runAutomation16 parent name useDirect procs edgeDirOk env →
        u = parent ∧ args = ("--profile-directory=" ++ name) :: commonArgs) := by
  constructor
  · intro parent name useDirect env u args h
    unfold runAutomation21 at h ⊢
    cases hout : (copyProfileSafely useDirect parent name env).outcome with
    | returned d =>
      rw [hout] at h
      simp only [List.mem_cons, List.not_mem_nil, or_false] at h
      rcases h with h | h | h
      · exact absurd h (by simp)
      · exact absurd h (by simp)
      · rw [Ev.launched.injEq] at h
        obtain ⟨rfl, -⟩ := h
        exact ⟨rfl, by simp⟩
    | exited =>
      rw [hout] at h
      simp at h
    | raisedLock s d r =>
      rw [hout] at h
      simp at h
  · intro parent name useDirect procs edgeDirOk env u args h
    unfold runAutomation16 at h
    rcases List.mem_cons.mp h with hhead | h1
    · exact absurd hhead (by simp)
    · rcases List.mem_append.mp h1 with h2 | h3
      · exact absurd h2 (launched_not_in_kill procs u args)
      · rcases List.mem_cons.mp h3 with hs | h4
        · exact absurd hs (by simp)
        · by_cases he : edgeDirOk = true
          · rw [if_pos he] at h4
            cases hout : (copyProfileSafely useDirect parent name env).outcome with
            | returned d =>
              rw [hout] at h4
              simp only [List.mem_cons, List.not_mem_nil, or_false] at h4
              rcases h4 with h4 | h4
              · exact absurd h4 (by simp)
              · rw [Ev.launched.injEq] at h4
                exact h4
            | exited =>
              rw [hout] at h4
              simp at h4
            | raisedLock s d r =>
              rw [hout] at h4
              simp at h4
          · rw [if_neg he] at h4
            simp at h4

/-- C5 amended witness: the amended theorem applied to a concrete v2.1
run and a concrete v1.6 run, both in direct mode. -/
theorem launch_dir_amended_witness :
    ((copyProfileSafely true "UserData" "Default" envReuse).outcome
        = StageOutcome.returned "UserData/Default"
      ∧ Ev.staged "UserData/Default" ∈ runAutomation21 "UserData" "Default" true envReuse)
    ∧ ("UserData" : String) = "UserData"
      ∧ ("--profile-directory=Default" :: commonArgs)
          = ("--profile-directory=" ++ "Default") :: commonArgs :=
  ⟨launch_dir_amended.1 "UserData" "Default" true envReuse "UserData/Default" commonArgs
      (by decide),
   launch_dir_amended.2 "UserData" "Default" true [] true envReuse "UserData"
      ("--profile-directory=Default" :: commonArgs) (by decide)⟩

/-- C10: in the v1.6 script, after the user selects a profile and before
the automation driver is launched, `run_automation` calls terminate on
every running process whose lowercased name starts with `msedge` (logging
a warning for each process it lacks permission to terminate) and then
waits two seconds - in direct mode as well as copy mode. -/
theorem killLoop_edge (parent name : String) (useDirect : Bool) (procs : List ProcInfo)
    (edgeDirOk : Bool) (env : StageEnv) (p : ProcInfo)
    (hp : p ∈ procs) (he : startsList "msedge".data (pyLower p.name).data = true) :
    ∃ tail,
      runAutomation16 parent name useDirect procs edgeDirOk env
        = Ev.profileSelected name :: ((procs.map killOne).flatten ++ Ev.slept 2 :: tail)
      ∧ (if p.canTerminate then Ev.termEdge p.pid else Ev.warnNoPerm p.pid)
          ∈ (procs.map killOne).flatten
      ∧ ∀ (u : String) (args : List String),
          Ev.launched u args ∈ runAutomation16 parent name useDirect procs edgeDirOk env
          → Ev.launched u args ∈ tail := by
  refine ⟨_, rfl, ?_, ?_⟩
  · refine List.mem_flatten.mpr ⟨killOne p, List.mem_map_of_mem _ hp, ?_⟩
    unfold killOne
    rw [if_pos he]
    cases hc : p.canTerminate <;> simp [hc]
  · intro u args h
    unfold runAutomation16 at h
    rcases List.mem_cons.mp h with hhead | h1
    · exact absurd hhead (by simp)
    · rcases List.mem_append.mp h1 with h2 | h3
      · exact absurd h2 (launched_not_in_kill procs u args)
      · rcases List.mem_cons.mp h3 with hs | h4
        · exact absurd hs (by simp)
        · exact h4

/-- C10 witness: the kill-loop theorem applied to a direct-mode run with
one running `msedge.exe` process. -/
theorem killLoop_edge_witness :
    ∃ tail,
      runAutomation16 "UserData" "Default" true [⟨4242, "msedge.exe", true⟩] true envReuse
        = Ev.profileSelected "Default"
            :: (([(⟨4242, "msedge.exe", true⟩ : ProcInfo)].map killOne).flatten
                ++ Ev.slept 2 :: tail)
      ∧ (if (⟨4242, "msedge.exe", true⟩ : ProcInfo).canTerminate
           then Ev.termEdge (⟨4242, "msedge.exe", true⟩ : ProcInfo).pid
           else Ev.warnNoPerm (⟨4242, "msedge.exe", true⟩ : ProcInfo).pid)
          ∈ ([(⟨4242, "msedge.exe", true⟩ : ProcInfo)].map killOne).flatten
      ∧ ∀ (u : String) (args : List String),
          Ev.launched u args
            ∈ runAutomation16 "UserData" "Default" true
                [⟨4242, "msedge.exe", true⟩] true envReuse
          → Ev.launched u args ∈ tail :=
  killLoop_edge "UserData" "Default" true [⟨4242, "msedge.exe", true⟩] true envReuse
    ⟨4242, "msedge.exe", true⟩ (by simp) (by decide)
